import Mathlib

/-!
Shallow embedding of the local authentication and per-user data
partitioning scheme of the expense-manager application
(src/contexts/SavingsContext.tsx: the AuthContext section, plus the
Expense/Income CRUD sections).

Modelling conventions:
* The AsyncStorage key space is a `Store` record with one field per key
  family (`registered_users`, the per-user `@auth_salt_<id>` keys as an
  association list keyed by userId, `@auth_store`, `@auth_session`, the
  `reset_code_<email>` keys keyed by email, `@expenses`, `@incomes`).
* `Date.now()` is an explicit `now : Nat` argument (milliseconds); every
  `Date.now()` call inside one operation reads the same tick.
* `Base64.stringify(SHA256(s))` is an abstract pure function
  `sha : String -> String` passed to each operation; the code uses it only
  as a deterministic one-way string transformer.
* Each storage-mutating operation returns the final `Store` paired with
  its outcome (`Except AuthErr` for the throwing operations); a thrown
  error carries the store as it was at the moment of the throw, since
  AsyncStorage writes that already happened survive an exception.
-/

/-- A directory entry under the `registered_users` key. -/
structure StoredUser where
  id : String
  email : String
  name : String
  passwordHash : String
deriving DecidableEq

/-- The public user projection stored under `@auth_store` (no digest). -/
structure PublicUser where
  id : String
  email : String
  name : String
deriving DecidableEq

/-- The session record stored under `@auth_session`. -/
structure SessionData where
  token : String
  expiresAt : Nat
  userId : String
deriving DecidableEq

/-- The `{code, expiry}` record stored under `reset_code_<email>`. -/
structure ResetData where
  code : String
  expiry : Nat
deriving DecidableEq

/-- An expense record (element of the array under `@expenses`). -/
structure Expense where
  id : String
  amount : Int
  description : String
  category : String
  date : String
  userId : String
deriving DecidableEq

/-- An income record (element of the array under `@incomes`). -/
structure Income where
  id : String
  amount : Int
  description : String
  category : String
  date : String
  userId : String
deriving DecidableEq

/-- First-match lookup in an association list (a keyed storage family). -/
def alookup {α : Type} (k : String) : List (String × α) → Option α
  | [] => none
  | (k2, v) :: rest => if k2 == k then some v else alookup k rest

/-- `setItem` on a keyed storage family: replace the binding or add it. -/
def aset {α : Type} (k : String) (v : α) : List (String × α) → List (String × α)
  | [] => [(k, v)]
  | (k2, v2) :: rest => if k2 == k then (k, v) :: rest else (k2, v2) :: aset k v rest

/-- `removeItem` on a keyed storage family. -/
def aremove {α : Type} (k : String) (l : List (String × α)) : List (String × α) :=
  l.filter (fun p => !(p.1 == k))

/-- The whole AsyncStorage key space used by the auth and CRUD code. -/
structure Store where
  registeredUsers : Option (List StoredUser)
  salts : List (String × String)
  authStore : Option PublicUser
  session : Option SessionData
  resetCodes : List (String × ResetData)
  expenses : Option (List Expense)
  incomes : Option (List Income)
deriving DecidableEq

/-- The directory as the code reads it: parse if present, else `[]`. -/
def usersOf (st : Store) : List StoredUser :=
  st.registeredUsers.getD []

/-- Characters allowed by each run of the regex: not whitespace, not `@`. -/
def isEmailChar (c : Char) : Bool :=
  !(c.isWhitespace) && !(c == '@')

/-- Split a character list at its first `@`, if any. -/
def splitAtAt : List Char → Option (List Char × List Char)
  | [] => none
  | c :: rest =>
    if c == '@' then some ([], rest)
    else (splitAtAt rest).map (fun p => (c :: p.1, p.2))

/-- There is a `.` that is not the last character. -/
def dotNotLast : List Char → Bool
  | [] => false
  | [_] => false
  | c :: rest => (c == '.') || dotNotLast rest

/-- There is a `.` that is neither the first nor the last character. -/
def hasInnerDot : List Char → Bool
  | [] => false
  | _ :: rest => dotNotLast rest

/-- The `validateEmail` regex test: one or more non-space non-`@`
characters, an `@`, then a domain part containing a `.` with non-empty
runs on both sides (pattern `^[^\s@]+@[^\s@]+\.[^\s@]+$`). -/
def validateEmail (email : String) : Bool :=
  match splitAtAt email.data with
  | none => false
  | some (l, r) =>
    !(l.isEmpty) && l.all isEmailChar && r.all isEmailChar && hasInnerDot r

/-- `generateSalt`: `Base64.stringify(SHA256(Date.now().toString()))`. -/
def generateSalt (sha : String → String) (now : Nat) : String :=
  sha (toString now)

/-- `hashPassword`: `Base64.stringify(SHA256(password + salt))`. -/
def hashPassword (sha : String → String) (password salt : String) : String :=
  sha (password ++ salt)

/-- `SESSION_DURATION`: 7 days in milliseconds. -/
def sessionDuration : Nat := 7 * 24 * 60 * 60 * 1000

/-- 24 hours in milliseconds (the non-remembered session length). -/
def dayMillis : Nat := 24 * 60 * 60 * 1000

/-- The error taxonomy of the auth facade (one constructor per distinct
`setError` code / thrown condition reachable in the modelled paths). -/
inductive AuthErr where
  | missingFields
  | invalidEmail
  | weakPassword
  | emailAlreadyInUse
  | userNotFound
  | wrongPassword
  | noResetCode
  | codeExpired
  | invalidCode
  | notAuthenticated
  | noUsersFound
deriving DecidableEq

/-- `createSession`: token is `sha(userId + now)`, expiry is
`now + (rememberMe ? 7 days : 24 hours)`. -/
def createSession (sha : String → String) (now : Nat) (userId : String)
    (rememberMe : Bool) : SessionData :=
  { token := sha (userId ++ toString now),
    expiresAt := now + (if rememberMe then sessionDuration else dayMillis),
    userId := userId }

/-- `signUp(email, password, name)`. Validations in source order; on
success stores the salt, appends the directory entry, creates a
remember-me session. Note: it never writes `@auth_store`. -/
def signUp (sha : String → String) (now : Nat) (st : Store)
    (email password name : String) : Store × Except AuthErr PublicUser :=
  if email = "" ∨ password = "" ∨ name = "" then
    (st, Except.error AuthErr.missingFields)
  else if validateEmail email = false then
    (st, Except.error AuthErr.invalidEmail)
  else if password.length < 6 then
    (st, Except.error AuthErr.weakPassword)
  else
    let users := usersOf st
    if users.any (fun u => u.email == email) then
      (st, Except.error AuthErr.emailAlreadyInUse)
    else
      let userId := toString now
      let salt := generateSalt sha now
      let st1 := { st with salts := aset userId salt st.salts }
      let newUser : StoredUser :=
        { id := userId, email := email, name := name,
          passwordHash := hashPassword sha password salt }
      let st2 := { st1 with registeredUsers := some (users ++ [newUser]) }
      let st3 := { st2 with session := some (createSession sha now userId true) }
      (st3, Except.ok { id := userId, email := email, name := name })

/-- `signIn(email, password, rememberMe)`. If the user's salt key is
absent, regenerates one and rewrites that user's digest from the supplied
password before the digest comparison (the self-heal path). On success
persists the public projection under `@auth_store` and a session. -/
def signIn (sha : String → String) (now : Nat) (st : Store)
    (email password : String) (rememberMe : Bool) :
    Store × Except AuthErr PublicUser :=
  if email = "" ∨ password = "" then
    (st, Except.error AuthErr.missingFields)
  else if validateEmail email = false then
    (st, Except.error AuthErr.invalidEmail)
  else
    match st.registeredUsers with
    | none => (st, Except.error AuthErr.userNotFound)
    | some users =>
      match users.find? (fun u => u.email == email) with
      | none => (st, Except.error AuthErr.userNotFound)
      | some foundUser =>
        let step : Store × StoredUser × String :=
          match alookup foundUser.id st.salts with
          | some salt => (st, foundUser, salt)
          | none =>
            let backupSalt := generateSalt sha now
            let fu2 :=
              { foundUser with passwordHash := hashPassword sha password backupSalt }
            let users2 := users.map (fun u => if u.id == foundUser.id then fu2 else u)
            ({ st with salts := aset foundUser.id backupSalt st.salts,
                       registeredUsers := some users2 }, fu2, backupSalt)
        match step with
        | (st1, fu, saltUsed) =>
          if hashPassword sha password saltUsed == fu.passwordHash then
            let pub : PublicUser := { id := fu.id, email := fu.email, name := fu.name }
            ({ st1 with session := some (createSession sha now fu.id rememberMe),
                        authStore := some pub }, Except.ok pub)
          else (st1, Except.error AuthErr.wrongPassword)

/-- `signOut`: `multiRemove([SESSION_KEY, STORAGE_KEY])`; directory and
salts untouched. -/
def signOut (st : Store) : Store :=
  { st with session := none, authStore := none }

/-- `loadStoredAuth`: return the stored projection while the persisted
session is unexpired; purge session and projection when it has expired. -/
def loadStoredAuth (now : Nat) (st : Store) : Store × Option PublicUser :=
  match st.session with
  | none => (st, none)
  | some session =>
    if now < session.expiresAt then
      match st.authStore with
      | some userData => (st, some userData)
      | none => (st, none)
    else
      ({ st with session := none, authStore := none }, none)

/-- `findIndex` by email followed by an in-place digest rewrite: returns
the updated directory and the id of the first entry with that email. -/
def resetUpdate (email newHash : String) :
    List StoredUser → Option (List StoredUser × String)
  | [] => none
  | u :: rest =>
    if u.email == email then
      some ({ u with passwordHash := newHash } :: rest, u.id)
    else
      (resetUpdate email newHash rest).map (fun p => (u :: p.1, p.2))

/-- `resetPassword(email, code, newPassword)`: checks stored code
presence, expiry (`Date.now() > expiry`), and equality, in that order;
on success writes a fresh salt, rewrites the digest, and deletes the
stored code. No password-strength check is performed. -/
def resetPassword (sha : String → String) (now : Nat) (st : Store)
    (email code newPassword : String) : Store × Except AuthErr Unit :=
  match alookup email st.resetCodes with
  | none => (st, Except.error AuthErr.noResetCode)
  | some resetData =>
    if resetData.expiry < now then
      (st, Except.error AuthErr.codeExpired)
    else if !(resetData.code == code) then
      (st, Except.error AuthErr.invalidCode)
    else
      let users := usersOf st
      let salt := generateSalt sha now
      let newHash := hashPassword sha newPassword salt
      match resetUpdate email newHash users with
      | none => (st, Except.error AuthErr.userNotFound)
      | some (users2, uid) =>
        ({ st with registeredUsers := some users2,
                   salts := aset uid salt st.salts,
                   resetCodes := aremove email st.resetCodes },
         Except.ok ())

/-- The `updates` argument of `updateUserProfile`: present fields
overwrite, absent fields are kept (JS object spread). -/
structure ProfileUpdates where
  name : Option String
  email : Option String
deriving DecidableEq

/-- Merge a `ProfileUpdates` into a directory entry (object spread). -/
def applyUpdates (u : StoredUser) (up : ProfileUpdates) : StoredUser :=
  { u with name := up.name.getD u.name, email := up.email.getD u.email }

/-- `findIndex` by id followed by the spread-merge at that index. -/
def profileUpdate (uid : String) (up : ProfileUpdates) :
    List StoredUser → Option (List StoredUser)
  | [] => none
  | u :: rest =>
    if u.id == uid then some (applyUpdates u up :: rest)
    else (profileUpdate uid up rest).map (fun r => u :: r)

/-- `updateUserProfile(updates)`: requires a current user; merges the
fields into the directory entry with the current user's id and into the
in-memory projection. No email-uniqueness check is performed. -/
def updateUserProfile (st : Store) (current : Option PublicUser)
    (up : ProfileUpdates) : Store × Except AuthErr PublicUser :=
  match current with
  | none => (st, Except.error AuthErr.notAuthenticated)
  | some user =>
    match st.registeredUsers with
    | none => (st, Except.error AuthErr.noUsersFound)
    | some users =>
      match profileUpdate user.id up users with
      | none => (st, Except.error AuthErr.userNotFound)
      | some users2 =>
        ({ st with registeredUsers := some users2 },
         Except.ok { id := user.id,
                     email := up.email.getD user.email,
                     name := up.name.getD user.name })

/-- `deleteExpense(id)`: filter the whole stored array by `id`, with no
reference to the record's `userId`. -/
def deleteExpense (st : Store) (id : String) : Store :=
  match st.expenses with
  | none => st
  | some all => { st with expenses := some (all.filter (fun e => !(e.id == id))) }

/-- `deleteIncome(id)`: filter the whole stored array by `id`, with no
reference to the record's `userId`. -/
def deleteIncome (st : Store) (id : String) : Store :=
  match st.incomes with
  | none => st
  | some all => { st with incomes := some (all.filter (fun i => !(i.id == id))) }

/-- `loadExpenses` for a signed-in user id: the whole stored array
filtered client-side by `userId`. -/
def loadExpenses (st : Store) (uid : String) : List Expense :=
  match st.expenses with
  | none => []
  | some all => all.filter (fun e => e.userId == uid)

/-- `loadIncomes` for a signed-in user id: the whole stored array
filtered client-side by `userId`. -/
def loadIncomes (st : Store) (uid : String) : List Income :=
  match st.incomes with
  | none => []
  | some all => all.filter (fun i => i.userId == uid)

/-- The session/current-user invariant at time `t`: an unexpired stored
session implies a stored public projection. -/
def sessionUserInv (t : Nat) (st : Store) : Bool :=
  match st.session with
  | none => true
  | some s => !(decide (t < s.expiresAt)) || st.authStore.isSome

/-- Pairwise-distinct strings (used for directory emails and ids). -/
def distinctStrings : List String → Bool
  | [] => true
  | s :: rest => !(rest.any (fun t => t == s)) && distinctStrings rest

/-- Pairwise-distinct emails across the directory. -/
def emailsDistinct (l : List StoredUser) : Bool :=
  distinctStrings (l.map (fun u => u.email))

/-- Pairwise-distinct ids across the directory. -/
def idsDistinct (l : List StoredUser) : Bool :=
  distinctStrings (l.map (fun u => u.id))

/-! ### Helper lemmas -/

theorem alookup_aset_self {α : Type} (k : String) (v : α) (l : List (String × α)) :
    alookup k (aset k v l) = some v := by
  induction l with
  | nil => simp [aset, alookup]
  | cons p rest ih =>
    by_cases h : p.1 == k
    · simp [aset, h, alookup]
    · simp [aset, h, alookup, ih]

theorem alookup_aremove_self {α : Type} (k : String) (l : List (String × α)) :
    alookup k (aremove k l) = none := by
  induction l with
  | nil => simp [aremove, alookup]
  | cons p rest ih =>
    by_cases h : p.1 == k
    · simpa [aremove, h] using ih
    · simpa [aremove, alookup, h] using ih

theorem find?_append_singleton {α : Type} {p : α → Bool} {l : List α} {x : α}
    (h : l.any p = false) (hx : p x = true) : (l ++ [x]).find? p = some x := by
  induction l with
  | nil => simp [List.find?, hx]
  | cons a rest ih =>
    simp only [List.any_cons, Bool.or_eq_false_iff] at h
    simp [List.find?, h.1, ih h.2]

theorem ne_empty_of_six_le {p : String} (h : 6 ≤ p.length) : p ≠ "" := by
  intro hp
  subst hp
  simp [String.length] at h

theorem validateEmail_ne_empty {e : String} (h : validateEmail e = true) : e ≠ "" := by
  intro he
  subst he
  simp [validateEmail, splitAtAt] at h

/-! ### Concrete fixtures used by witnesses and counterexamples -/

/-- A concrete stand-in for the abstract one-way hash. -/
def sha0 : String → String := fun s => "H" ++ s

/-- A registered user whose digest matches password secret1 and salt s1
under the concrete hash. -/
def u1 : StoredUser :=
  { id := "u1", email := "a@b.c", name := "Al", passwordHash := "Hsecret1s1" }

/-- The empty storage state. -/
def emptyStore : Store :=
  { registeredUsers := none, salts := [], authStore := none, session := none,
    resetCodes := [], expenses := none, incomes := none }

/-- Storage with one registered user and their salt present. -/
def stPre : Store :=
  { registeredUsers := some [u1], salts := [("u1", "s1")], authStore := none,
    session := none, resetCodes := [], expenses := none, incomes := none }

/-- Storage with one registered user whose salt key is absent. -/
def stNoSalt : Store :=
  { registeredUsers := some [u1], salts := [], authStore := none,
    session := none, resetCodes := [], expenses := none, incomes := none }

/-! ### C7 -/

/-- C7: when the user's salt key is present and the supplied password's
digest under that salt differs from the stored digest, signIn fails with
InvalidCredentials (auth/wrong-password) and the whole store — in
particular the user's passwordDigest in registered_users — is unchanged. -/
theorem signIn_wrong_password_invalid_credentials
    (sha : String → String) (now : Nat) (st : Store)
    (email password : String) (rm : Bool)
    (users : List StoredUser) (u : StoredUser) (salt : String)
    (hP : password ≠ "")
    (hV : validateEmail email = true)
    (hU : st.registeredUsers = some users)
    (hF : users.find? (fun v => v.email == email) = some u)
    (hS : alookup u.id st.salts = some salt)
    (hH : hashPassword sha password salt ≠ u.passwordHash) :
    signIn sha now st email password rm = (st, Except.error AuthErr.wrongPassword) := by
  have hE : email ≠ "" := validateEmail_ne_empty hV
  simp [signIn, hE, hP, hV, hU, hF, hS, hH]

/-- Witness for C7 at a concrete store and password. -/
theorem signIn_wrong_password_invalid_credentials_witness :
    hashPassword sha0 "wrong1" "s1" ≠ u1.passwordHash ∧
    signIn sha0 7 stPre "a@b.c" "wrong1" true =
      (stPre, Except.error AuthErr.wrongPassword) :=
  ⟨by decide,
   signIn_wrong_password_invalid_credentials sha0 7 stPre "a@b.c" "wrong1" true
     [u1] u1 "s1" (by decide) (by decide) rfl rfl rfl (by decide)⟩

/-! ### C1 -/

/-- C1 counterexample: the claim quantifies over ANY supplied password,
but with the empty password signIn returns the missing-fields error
before touching storage: no salt is regenerated or stored and the digest
is not rewritten (the user's salt key is still absent afterwards). -/
theorem signIn_missing_salt_empty_password_cex :
    alookup u1.id stNoSalt.salts = none ∧
    signIn sha0 9 stNoSalt "a@b.c" "" true =
      (stNoSalt, Except.error AuthErr.missingFields) :=
  ⟨rfl, rfl⟩

/-- C1 (amended): for a registered user whose stored email passes the
shape validation and whose salt key is absent, signIn with any NON-EMPTY
supplied password regenerates a salt from the clock, stores it under the
user's salt key, rewrites that user's directory digest to the hash of the
supplied password under the new salt, and succeeds — it never fails with
InvalidCredentials. -/
theorem signIn_missing_salt_accepts_any_nonempty_password
    (sha : String → String) (now : Nat) (st : Store)
    (email password : String) (rm : Bool)
    (users : List StoredUser) (u : StoredUser)
    (hP : password ≠ "")
    (hV : validateEmail email = true)
    (hU : st.registeredUsers = some users)
    (hF : users.find? (fun v => v.email == email) = some u)
    (hS : alookup u.id st.salts = none) :
    ∃ st2 pub,
      signIn sha now st email password rm = (st2, Except.ok pub) ∧
      pub.id = u.id ∧
      alookup u.id st2.salts = some (generateSalt sha now) ∧
      st2.registeredUsers = some (users.map (fun v =>
        if v.id == u.id then
          { u with passwordHash := hashPassword sha password (generateSalt sha now) }
        else v)) := by
  have hE : email ≠ "" := validateEmail_ne_empty hV
  refine ⟨{ st with
      salts := aset u.id (generateSalt sha now) st.salts,
      registeredUsers := some (users.map (fun v =>
        if v.id == u.id then
          { u with passwordHash := hashPassword sha password (generateSalt sha now) }
        else v)),
      session := some (createSession sha now u.id rm),
      authStore := some ⟨u.id, u.email, u.name⟩ },
    ⟨u.id, u.email, u.name⟩, ?_, rfl, ?_, rfl⟩
  · simp [signIn, hE, hP, hV, hU, hF, hS, hashPassword, generateSalt]
  · simpa using alookup_aset_self u.id (generateSalt sha now) st.salts

/-- Witness for C1 at a concrete store and a wrong, non-empty password. -/
theorem signIn_missing_salt_witness :
    alookup u1.id stNoSalt.salts = none ∧
    ∃ st2 pub,
      signIn sha0 9 stNoSalt "a@b.c" "totally-wrong" true = (st2, Except.ok pub) ∧
      pub.id = u1.id ∧
      alookup u1.id st2.salts = some (generateSalt sha0 9) ∧
      st2.registeredUsers = some ([u1].map (fun v =>
        if v.id == u1.id then
          { v with passwordHash := hashPassword sha0 "totally-wrong" (generateSalt sha0 9) }
        else v)) :=
  ⟨rfl,
   signIn_missing_salt_accepts_any_nonempty_password sha0 9 stNoSalt
     "a@b.c" "totally-wrong" true [u1] u1 (by decide) (by decide) rfl rfl rfl⟩

/-! ### C3 -/

/-- C3: for valid inputs (all non-empty, email of valid shape, password
at least 6 characters, email not already registered), signUp followed
immediately by signIn with the same credentials succeeds and the
signed-in user's id equals the id assigned at signUp. -/
theorem signUp_then_signIn_succeeds
    (sha : String → String) (t1 t2 : Nat) (st : Store)
    (email password name : String) (rm : Bool)
    (hN : name ≠ "")
    (hV : validateEmail email = true)
    (hL : 6 ≤ password.length)
    (hD : (usersOf st).any (fun u => u.email == email) = false) :
    ∃ st1 pub st2 pub2,
      signUp sha t1 st email password name = (st1, Except.ok pub) ∧
      signIn sha t2 st1 email password rm = (st2, Except.ok pub2) ∧
      pub2.id = pub.id := by
  have hE : email ≠ "" := validateEmail_ne_empty hV
  have hP : password ≠ "" := ne_empty_of_six_le hL
  have hL2 : ¬ password.length < 6 := Nat.not_lt.mpr hL
  have hfind := @find?_append_singleton StoredUser (fun u => u.email == email)
    (usersOf st)
    ⟨toString t1, email, name, hashPassword sha password (generateSalt sha t1)⟩
    hD (by simp)
  have hsalt := alookup_aset_self (toString t1) (generateSalt sha t1) st.salts
  refine ⟨{ st with
      salts := aset (toString t1) (generateSalt sha t1) st.salts,
      registeredUsers := some (usersOf st ++
        [⟨toString t1, email, name, hashPassword sha password (generateSalt sha t1)⟩]),
      session := some (createSession sha t1 (toString t1) true) },
    ⟨toString t1, email, name⟩,
    { st with
      salts := aset (toString t1) (generateSalt sha t1) st.salts,
      registeredUsers := some (usersOf st ++
        [⟨toString t1, email, name, hashPassword sha password (generateSalt sha t1)⟩]),
      session := some (createSession sha t2 (toString t1) rm),
      authStore := some ⟨toString t1, email, name⟩ },
    ⟨toString t1, email, name⟩, ?_, ?_, rfl⟩
  · simp [signUp, hE, hP, hN, hV, hL2, hD]
  · simp [signIn, hE, hP, hV, hfind, hsalt]

/-- Witness for C3: a fresh store, a concrete valid registration. -/
theorem signUp_then_signIn_succeeds_witness :
    validateEmail "a@b.c" = true ∧
    6 ≤ ("secret1" : String).length ∧
    ∃ st1 pub st2 pub2,
      signUp sha0 1 emptyStore "a@b.c" "secret1" "Al" = (st1, Except.ok pub) ∧
      signIn sha0 2 st1 "a@b.c" "secret1" false = (st2, Except.ok pub2) ∧
      pub2.id = pub.id :=
  ⟨by decide, by decide,
   signUp_then_signIn_succeeds sha0 1 2 emptyStore "a@b.c" "secret1" "Al" false
     (by decide) (by decide) (by decide) (by decide)⟩

/-! ### C2 -/

theorem signIn_ok_shape {sha : String → String} {now : Nat} {st : Store}
    {email password : String} {rm : Bool} {st2 : Store} {pub : PublicUser}
    (h : signIn sha now st email password rm = (st2, Except.ok pub)) :
    st2.authStore = some pub ∧
    st2.session = some (createSession sha now pub.id rm) := by
  unfold signIn at h
  split at h
  · simp at h
  split at h
  · simp at h
  split at h
  · simp at h
  split at h
  · simp at h
  rename_i users foundUser hfind
  rcases hsalt : alookup foundUser.id st.salts with _ | salt
  all_goals rw [hsalt] at h
  all_goals simp only [] at h
  all_goals split at h
  all_goals simp_all
  all_goals obtain ⟨h1, h2⟩ := h
  all_goals subst h1
  all_goals subst h2
  all_goals simp

theorem signIn_error_shape {sha : String → String} {now : Nat} {st : Store}
    {email password : String} {rm : Bool} {st2 : Store} {e : AuthErr}
    (h : signIn sha now st email password rm = (st2, Except.error e)) :
    st2.session = st.session ∧ st2.authStore = st.authStore := by
  unfold signIn at h
  split at h
  · simp at h
    exact ⟨by rw [h.1], by rw [h.1]⟩
  split at h
  · simp at h
    exact ⟨by rw [h.1], by rw [h.1]⟩
  split at h
  · simp at h
    exact ⟨by rw [h.1], by rw [h.1]⟩
  split at h
  · simp at h
    exact ⟨by rw [h.1], by rw [h.1]⟩
  rename_i users foundUser hfind
  rcases hsalt : alookup foundUser.id st.salts with _ | salt
  all_goals rw [hsalt] at h
  all_goals simp only [] at h
  all_goals split at h
  all_goals simp_all

theorem sessionUserInv_congr {t : Nat} {st st2 : Store}
    (hs : st2.session = st.session) (ha : st2.authStore = st.authStore) :
    sessionUserInv t st2 = sessionUserInv t st := by
  unfold sessionUserInv
  rw [hs, ha]

/-- C2 counterexample: signUp stores a session (unexpired at the moment
of creation) but never writes the public projection under the auth-store
key, so the claimed invariant fails right after a successful signUp from
an empty store. -/
theorem session_inv_signUp_cex :
    sessionUserInv 5 (signUp sha0 5 emptyStore "a@b.c" "secret1" "Al").1 = false := by
  decide

/-- C2 (amended): the invariant "an unexpired stored session implies a
stored public user projection" is established by every successful signIn,
holds after signOut, and is preserved by loadStoredAuth and by failing
signIn calls — but it is NOT guaranteed after signUp, which stores a
session without ever writing the projection. -/
theorem session_user_projection_inv
    (sha : String → String) (now : Nat) (st : Store) :
    (∀ email password rm st2 pub t,
        signIn sha now st email password rm = (st2, Except.ok pub) →
        sessionUserInv t st2 = true) ∧
    (∀ t, sessionUserInv t (signOut st) = true) ∧
    (∀ t, sessionUserInv t st = true →
        sessionUserInv t (loadStoredAuth now st).1 = true) ∧
    (∀ email password rm st2 e t,
        signIn sha now st email password rm = (st2, Except.error e) →
        sessionUserInv t st = true → sessionUserInv t st2 = true) := by
  refine ⟨?_, ?_, ?_, ?_⟩
  · intro email password rm st2 pub t h
    obtain ⟨ha, hs⟩ := signIn_ok_shape h
    unfold sessionUserInv
    rw [hs, ha]
    simp
  · intro t
    simp [sessionUserInv, signOut]
  · intro t h
    unfold loadStoredAuth
    split
    · simpa using h
    · split
      · split
        · simpa using h
        · simpa using h
      · simp [sessionUserInv]
  · intro email password rm st2 e t h hinv
    obtain ⟨hs, ha⟩ := signIn_error_shape h
    rw [sessionUserInv_congr hs ha]
    exact hinv

/-- Witness for C2 (amended), exercising the signIn conjunct at a
concrete successful sign-in. -/
theorem session_user_projection_inv_witness :
    sessionUserInv 99 (signIn sha0 7 stPre "a@b.c" "secret1" true).1 = true :=
  (session_user_projection_inv sha0 7 stPre).1 "a@b.c" "secret1" true
    (signIn sha0 7 stPre "a@b.c" "secret1" true).1
    { id := "u1", email := "a@b.c", name := "Al" } 99 rfl

/-! ### C5 -/

/-- C5: createSession's expiry is now + 7 days when remember is true and
now + 24 hours when remember is false; and the load path treats a stored
session whose expiresAt is not later than the current time as absent —
it returns no user and purges both the stored session and the stored
user projection. -/
theorem createSession_expiry_and_load_purge
    (sha : String → String) (now : Nat) (uid : String)
    (st : Store) (s : SessionData) :
    (createSession sha now uid true).expiresAt = now + 7 * 24 * 60 * 60 * 1000 ∧
    (createSession sha now uid false).expiresAt = now + 24 * 60 * 60 * 1000 ∧
    (st.session = some s → s.expiresAt ≤ now →
      loadStoredAuth now st =
        ({ st with session := none, authStore := none }, none)) := by
  refine ⟨rfl, rfl, ?_⟩
  intro hs hexp
  unfold loadStoredAuth
  rw [hs]
  simp [Nat.not_lt.mpr hexp]

/-- A stored session that expired at time 50. -/
def sExp : SessionData := { token := "tk", expiresAt := 50, userId := "u1" }

/-- Storage holding the expired session and a stale projection. -/
def stExp : Store :=
  { registeredUsers := some [u1], salts := [("u1", "s1")],
    authStore := some { id := "u1", email := "a@b.c", name := "Al" },
    session := some sExp, resetCodes := [], expenses := none, incomes := none }

/-- Witness for C5 at a concrete expired session. -/
theorem createSession_expiry_and_load_purge_witness :
    sExp.expiresAt ≤ 60 ∧
    loadStoredAuth 60 stExp =
      ({ stExp with session := none, authStore := none }, none) :=
  ⟨by decide,
   (createSession_expiry_and_load_purge sha0 60 "u1" stExp sExp).2.2 rfl (by decide)⟩

/-! ### C6 -/

/-- C6: with a stored reset code, resetPassword fails with CodeExpired
when the current time is past the code's expiry and with InvalidCode when
the supplied code differs from the stored unexpired one — in both cases
the store (hence every user's stored digest) is unchanged; on success the
stored code is deleted, so an immediately repeated resetPassword for the
same email fails with NoResetCodeFound. -/
theorem resetPassword_error_paths_and_consumption
    (sha : String → String) (now : Nat) (st : Store)
    (email code newPassword : String) (rd : ResetData)
    (hR : alookup email st.resetCodes = some rd) :
    (rd.expiry < now →
      resetPassword sha now st email code newPassword =
        (st, Except.error AuthErr.codeExpired)) ∧
    (¬ rd.expiry < now → (rd.code == code) = false →
      resetPassword sha now st email code newPassword =
        (st, Except.error AuthErr.invalidCode)) ∧
    (∀ st2, resetPassword sha now st email code newPassword =
        (st2, Except.ok ()) →
      alookup email st2.resetCodes = none ∧
      (∀ now2 code2 p2, resetPassword sha now2 st2 email code2 p2 =
        (st2, Except.error AuthErr.noResetCode))) := by
  refine ⟨?_, ?_, ?_⟩
  · intro h
    simp [resetPassword, hR, h]
  · intro h hc
    simp [resetPassword, hR, h, hc]
  · intro st2 h
    unfold resetPassword at h
    rw [hR] at h
    simp only [] at h
    split at h
    · simp at h
    split at h
    · simp at h
    split at h
    · simp at h
    · rename_i users2 uid hupd
      simp only [Prod.mk.injEq] at h
      obtain ⟨h1, -⟩ := h
      subst h1
      have hnone : alookup email (aremove email st.resetCodes) = none :=
        alookup_aremove_self email st.resetCodes
      refine ⟨hnone, ?_⟩
      intro now2 code2 p2
      unfold resetPassword
      rw [show alookup email (aremove email st.resetCodes) = none from hnone]

/-- A stored reset code for u1's email, expiring at time 100. -/
def rdC : ResetData := { code := "111111", expiry := 100 }

/-- Storage holding the reset code and the registered user. -/
def stRC : Store :=
  { registeredUsers := some [u1], salts := [("u1", "s1")], authStore := none,
    session := none, resetCodes := [("a@b.c", rdC)], expenses := none,
    incomes := none }

/-- Witness for C6 at a concrete expired reset attempt. -/
theorem resetPassword_error_paths_witness :
    alookup "a@b.c" stRC.resetCodes = some rdC ∧
    rdC.expiry < 999 ∧
    resetPassword sha0 999 stRC "a@b.c" "111111" "newpw" =
      (stRC, Except.error AuthErr.codeExpired) :=
  ⟨rfl, by decide,
   (resetPassword_error_paths_and_consumption sha0 999 stRC
     "a@b.c" "111111" "newpw" rdC rfl).1 (by decide)⟩

/-! ### C9 -/

theorem resetUpdate_isSome {email newHash : String} {l : List StoredUser}
    (h : l.any (fun u => u.email == email) = true) :
    ∃ p, resetUpdate email newHash l = some p := by
  induction l with
  | nil => simp at h
  | cons a rest ih =>
    by_cases ha : (a.email == email) = true
    · exact ⟨({ a with passwordHash := newHash } :: rest, a.id),
        by simp [resetUpdate, ha]⟩
    · simp only [List.any_cons, ha, Bool.false_or] at h
      obtain ⟨p, hp⟩ := ih h
      exact ⟨(a :: p.1, p.2), by simp [resetUpdate, ha, hp]⟩

/-- C9: with a stored, unexpired, matching reset code for a registered
email, resetPassword succeeds for every newPassword string whatsoever —
the universally quantified newPassword is never length-checked — while
signUp rejects any password shorter than 6 characters with the
weak-password error; so a password rejected at sign-up can be set by
reset. -/
theorem resetPassword_no_min_length
    (sha : String → String) (now : Nat) (st : Store)
    (email code newPassword : String) (rd : ResetData)
    (hR : alookup email st.resetCodes = some rd)
    (hExp : ¬ rd.expiry < now)
    (hC : (rd.code == code) = true)
    (hU : (usersOf st).any (fun u => u.email == email) = true) :
    (∃ st2, resetPassword sha now st email code newPassword =
      (st2, Except.ok ())) ∧
    (∀ e p n, e ≠ "" → p ≠ "" → n ≠ "" → validateEmail e = true →
      p.length < 6 →
      signUp sha now st e p n = (st, Except.error AuthErr.weakPassword)) := by
  constructor
  · obtain ⟨⟨users2, uid⟩, hupd⟩ :=
      @resetUpdate_isSome email
        (hashPassword sha newPassword (generateSalt sha now)) (usersOf st) hU
    exact ⟨{ st with
        registeredUsers := some users2,
        salts := aset uid (generateSalt sha now) st.salts,
        resetCodes := aremove email st.resetCodes },
      by simp [resetPassword, hR, hExp, hC, hupd]⟩
  · intro e p n he hp hn hv hl
    simp [signUp, he, hp, hn, hv, hl]

/-- Witness for C9: the empty string is accepted as the new password. -/
theorem resetPassword_no_min_length_witness :
    alookup "a@b.c" stRC.resetCodes = some rdC ∧
    ¬ rdC.expiry < 50 ∧
    (rdC.code == "111111") = true ∧
    (usersOf stRC).any (fun u => u.email == "a@b.c") = true ∧
    ((∃ st2, resetPassword sha0 50 stRC "a@b.c" "111111" "" =
        (st2, Except.ok ())) ∧
     (∀ e p n, e ≠ "" → p ≠ "" → n ≠ "" → validateEmail e = true →
        p.length < 6 →
        signUp sha0 50 stRC e p n = (stRC, Except.error AuthErr.weakPassword))) :=
  ⟨rfl, by decide, by decide, by decide,
   resetPassword_no_min_length sha0 50 stRC "a@b.c" "111111" "" rdC rfl
     (by decide) (by decide) (by decide)⟩

/-! ### C8 -/

/-- C8 counterexample: the claim quantifies over every supplied input,
but when the supplied password is shorter than 6 characters the
field-validation error fires before the duplicate check, so signUp with
an already-registered email fails with the weak-password error, not
DuplicateEmail. -/
theorem signUp_duplicate_email_weak_password_cex :
    stPre.registeredUsers = some [u1] ∧
    u1.email = "a@b.c" ∧
    signUp sha0 3 stPre "a@b.c" "x" "B" =
      (stPre, Except.error AuthErr.weakPassword) :=
  ⟨rfl, rfl, rfl⟩

/-- C8 (amended): when the supplied inputs pass the field validations
(all non-empty, valid email shape, password at least 6 characters) and
some directory entry has exactly the supplied email, signUp fails with
DuplicateEmail and the whole store — directory, salt keys and session —
is unchanged. -/
theorem signUp_duplicate_email_amended
    (sha : String → String) (now : Nat) (st : Store)
    (email password name : String)
    (hP : password ≠ "") (hN : name ≠ "")
    (hV : validateEmail email = true)
    (hL : ¬ password.length < 6)
    (hDup : (usersOf st).any (fun u => u.email == email) = true) :
    signUp sha now st email password name =
      (st, Except.error AuthErr.emailAlreadyInUse) := by
  have hE : email ≠ "" := validateEmail_ne_empty hV
  simp [signUp, hE, hP, hN, hV, hL, hDup]

/-- Witness for C8 (amended) at a concrete duplicate registration. -/
theorem signUp_duplicate_email_amended_witness :
    (usersOf stPre).any (fun u => u.email == "a@b.c") = true ∧
    signUp sha0 3 stPre "a@b.c" "secret2" "B" =
      (stPre, Except.error AuthErr.emailAlreadyInUse) :=
  ⟨by decide,
   signUp_duplicate_email_amended sha0 3 stPre "a@b.c" "secret2" "B"
     (by decide) (by decide) (by decide) (by decide) (by decide)⟩

/-! ### C10 -/

/-- C10: deleteExpense and deleteIncome remove from the stored
collection exactly the records whose id equals the argument — with no
condition on the record's userId — and leave every record with a
different id in place; the per-user partition exists only on the read
path, where loadExpenses/loadIncomes filter the whole stored collection
by userId. -/
theorem delete_by_id_ignores_userId
    (st : Store) (allE : List Expense) (allI : List Income)
    (eid iid uid : String)
    (hE : st.expenses = some allE) (hI : st.incomes = some allI) :
    (∀ e : Expense,
      e ∈ ((deleteExpense st eid).expenses.getD []) ↔ e ∈ allE ∧ e.id ≠ eid) ∧
    (∀ i : Income,
      i ∈ ((deleteIncome st iid).incomes.getD []) ↔ i ∈ allI ∧ i.id ≠ iid) ∧
    (∀ x : Expense, x ∈ loadExpenses st uid ↔ x ∈ allE ∧ x.userId = uid) ∧
    (∀ y : Income, y ∈ loadIncomes st uid ↔ y ∈ allI ∧ y.userId = uid) := by
  refine ⟨?_, ?_, ?_, ?_⟩
  · intro e
    simp [deleteExpense, hE, List.mem_filter]
  · intro i
    simp [deleteIncome, hI, List.mem_filter]
  · intro x
    simp [loadExpenses, hE, List.mem_filter]
  · intro y
    simp [loadIncomes, hI, List.mem_filter]

/-- An expense owned by u1. -/
def e1 : Expense :=
  { id := "7", amount := 10, description := "d1", category := "food",
    date := "2024-01-01", userId := "u1" }

/-- An expense with the same id owned by a different user. -/
def e2 : Expense :=
  { id := "7", amount := 20, description := "d2", category := "rent",
    date := "2024-01-02", userId := "u2" }

/-- Storage with both expenses present. -/
def stDel : Store :=
  { registeredUsers := some [u1], salts := [("u1", "s1")], authStore := none,
    session := none, resetCodes := [], expenses := some [e1, e2],
    incomes := some [] }

/-- Witness for C10: deleting id 7 as u1 also removes u2's record. -/
theorem delete_by_id_ignores_userId_witness :
    stDel.expenses = some [e1, e2] ∧
    (e2 ∈ ((deleteExpense stDel "7").expenses.getD []) ↔
      e2 ∈ [e1, e2] ∧ e2.id ≠ "7") :=
  ⟨rfl, (delete_by_id_ignores_userId stDel [e1, e2] [] "7" "9" "u1" rfl rfl).1 e2⟩

/-! ### C4 -/

/-- A second registered user with a different email and id. -/
def u2 : StoredUser :=
  { id := "u2", email := "b@b.c", name := "Bo", passwordHash := "h2" }

/-- The public projection of u2 (the signed-in current user). -/
def pubU2 : PublicUser := { id := "u2", email := "b@b.c", name := "Bo" }

/-- Storage with two registered users whose emails are distinct. -/
def stDup : Store :=
  { registeredUsers := some [u1, u2], salts := [("u1", "s1")],
    authStore := none, session := none, resetCodes := [], expenses := none,
    incomes := none }

/-- C4 counterexample: updateUserProfile performs no duplicate check, so
updating the signed-in user's email to another entry's email produces a
directory with two identical emails. -/
theorem email_uniqueness_updateProfile_cex :
    emailsDistinct (usersOf stDup) = true ∧
    (updateUserProfile stDup (some pubU2)
      { name := none, email := some "a@b.c" }).2 =
      Except.ok { id := "u2", email := "a@b.c", name := "Bo" } ∧
    emailsDistinct (usersOf (updateUserProfile stDup (some pubU2)
      { name := none, email := some "a@b.c" }).1) = false :=
  ⟨by decide, rfl, by decide⟩

theorem distinctStrings_append_singleton {l : List String} {s : String}
    (hd : distinctStrings l = true) (hs : l.any (fun t => t == s) = false) :
    distinctStrings (l ++ [s]) = true := by
  induction l with
  | nil => simp [distinctStrings]
  | cons a rest ih =>
    simp only [List.any_cons, Bool.or_eq_false_iff] at hs
    simp only [distinctStrings, List.cons_append, Bool.and_eq_true] at hd ⊢
    have h2 : (s == a) = false :=
      beq_eq_false_iff_ne.mpr (Ne.symm (beq_eq_false_iff_ne.mp hs.1))
    refine ⟨?_, ih hd.2 hs.2⟩
    have h1 : rest.any (fun t => t == a) = false := by
      have := hd.1
      simp only [Bool.not_eq_true', Bool.not_eq_false] at this ⊢
      exact this
    simp [List.any_append, h1, h2]

theorem map_selfheal_emails {users : List StoredUser} {fu : StoredUser}
    (newHash : String)
    (hmem : fu ∈ users)
    (hids : distinctStrings (users.map (fun u => u.id)) = true) :
    (users.map (fun u => if u.id == fu.id then
        { fu with passwordHash := newHash } else u)).map (fun u => u.email) =
      users.map (fun u => u.email) := by
  induction users with
  | nil => simp at hmem
  | cons a rest ih =>
    simp only [List.map_cons, distinctStrings, Bool.and_eq_true] at hids
    have hids1 : (rest.map (fun u => u.id)).any (fun t => t == a.id) = false := by
      have := hids.1
      simp only [Bool.not_eq_true', Bool.not_eq_false] at this
      exact this
    have hids2 : distinctStrings (rest.map (fun u => u.id)) = true := hids.2
    by_cases ha : (a.id == fu.id) = true
    · have hfa : fu = a := by
        rcases List.mem_cons.mp hmem with hh | hh
        · exact hh
        · exfalso
          have haid : a.id = fu.id := eq_of_beq ha
          have hin : (rest.map (fun u => u.id)).any
              (fun t => t == a.id) = true :=
            List.any_eq_true.mpr ⟨fu.id, List.mem_map_of_mem _ hh, by simp [haid]⟩
          rw [hids1] at hin
          exact Bool.false_ne_true hin
      subst hfa
      have htail : rest.map (fun u => if u.id == fu.id then
          { fu with passwordHash := newHash } else u) = rest := by
        have hcongr : ∀ u ∈ rest, (if u.id == fu.id then
            { fu with passwordHash := newHash } else u) = u := by
          intro u hu
          have hne : (u.id == fu.id) = false := by
            by_contra hc
            simp only [Bool.not_eq_false] at hc
            have hin : (rest.map (fun v => v.id)).any
                (fun t => t == fu.id) = true :=
              List.any_eq_true.mpr ⟨u.id, List.mem_map_of_mem _ hu, hc⟩
            rw [hids1] at hin
            exact Bool.false_ne_true hin
          simp [hne]
        calc rest.map (fun u => if u.id == fu.id then
              { fu with passwordHash := newHash } else u)
            = rest.map id := List.map_congr_left hcongr
          _ = rest := List.map_id rest
      rw [List.map_cons, htail]
      simp [ha]
    · have hfr : fu ∈ rest := by
        rcases List.mem_cons.mp hmem with hh | hh
        · exfalso
          subst hh
          simp at ha
        · exact hh
      simp only [List.map_cons, ha, Bool.false_eq_true, if_false]
      rw [ih hfr hids2]

theorem resetUpdate_emails {email newHash : String} :
    ∀ {l l2 : List StoredUser} {uid : String},
    resetUpdate email newHash l = some (l2, uid) →
    l2.map (fun u => u.email) = l.map (fun u => u.email) := by
  intro l
  induction l with
  | nil =>
    intro l2 uid h
    simp [resetUpdate] at h
  | cons a rest ih =>
    intro l2 uid h
    by_cases ha : (a.email == email) = true
    · simp only [resetUpdate, ha, if_true, Option.some.injEq,
        Prod.mk.injEq] at h
      obtain ⟨h1, -⟩ := h
      subst h1
      simp
    · simp only [resetUpdate, ha, Bool.false_eq_true, if_false,
        Option.map_eq_some'] at h
      obtain ⟨⟨l3, uid3⟩, hrec, heq⟩ := h
      simp only [Prod.mk.injEq] at heq
      obtain ⟨h1, -⟩ := heq
      subst h1
      simp [ih hrec]

theorem any_beq_map_emails {l : List StoredUser} {email : String}
    (h : l.any (fun u => u.email == email) = false) :
    (l.map (fun u => u.email)).any (fun t => t == email) = false := by
  induction l with
  | nil => simp
  | cons a rest ih =>
    simp only [List.any_cons, Bool.or_eq_false_iff, List.map_cons] at h ⊢
    exact ⟨h.1, ih h.2⟩

/-- C4 (amended): starting from a directory with pairwise-distinct
emails, signUp and resetPassword preserve email uniqueness, and signIn
preserves it provided the directory's ids are also pairwise distinct
(its self-heal path rewrites every entry sharing the found user's id);
updateUserProfile does NOT preserve it — it merges an email update with
no duplicate check (see the counterexample). -/
theorem email_uniqueness_preserved_amended
    (sha : String → String) (now : Nat) (st : Store)
    (h : emailsDistinct (usersOf st) = true) :
    (∀ email password name,
      emailsDistinct (usersOf (signUp sha now st email password name).1) = true) ∧
    (∀ email password rm, idsDistinct (usersOf st) = true →
      emailsDistinct (usersOf (signIn sha now st email password rm).1) = true) ∧
    (∀ email code newPassword,
      emailsDistinct
        (usersOf (resetPassword sha now st email code newPassword).1) = true) := by
  refine ⟨?_, ?_, ?_⟩
  · intro email password name
    unfold signUp
    split
    · exact h
    split
    · exact h
    split
    · exact h
    simp only []
    split
    · exact h
    · rename_i hany
      have hany2 : (usersOf st).any (fun u => u.email == email) = false := by
        simpa using hany
      unfold emailsDistinct at h ⊢
      simp only [usersOf, Option.getD_some, List.map_append, List.map_cons,
        List.map_nil]
      apply distinctStrings_append_singleton h
      exact any_beq_map_emails hany2
  · intro email password rm hids
    unfold signIn
    split
    · exact h
    split
    · exact h
    split
    · exact h
    split
    · exact h
    · rename_i x1 users hequsers x2 foundUser hfind
      have hm : foundUser ∈ users := List.mem_of_find?_eq_some hfind
      have husers : usersOf st = users := by
        rw [usersOf, hequsers]
        rfl
      rcases hsalt : alookup foundUser.id st.salts with _ | salt
      · simp only []
        have hids2 : distinctStrings (users.map (fun u => u.id)) = true := by
          unfold idsDistinct at hids
          rwa [husers] at hids
        have hgoal : emailsDistinct (users.map (fun u =>
            if u.id == foundUser.id then
              { foundUser with
                  passwordHash := hashPassword sha password (generateSalt sha now) }
            else u)) = true := by
          unfold emailsDistinct at h ⊢
          rw [map_selfheal_emails _ hm hids2]
          rwa [husers] at h
        split
        · unfold emailsDistinct at hgoal ⊢
          simpa [usersOf] using hgoal
        · unfold emailsDistinct at hgoal ⊢
          simpa [usersOf] using hgoal
      · simp only []
        split
        · unfold emailsDistinct at h ⊢
          simpa [usersOf] using h
        · exact h
  · intro email code newPassword
    unfold resetPassword
    split
    · exact h
    split
    · exact h
    split
    · exact h
    simp only []
    split
    · exact h
    · rename_i users2 uid hupd
      unfold emailsDistinct at h ⊢
      simp only [usersOf, Option.getD_some]
      rw [resetUpdate_emails hupd]
      exact h

/-- Witness for C4 (amended) at a concrete two-user directory. -/
theorem email_uniqueness_preserved_witness :
    emailsDistinct (usersOf stDup) = true ∧
    emailsDistinct (usersOf (signUp sha0 9 stDup "x@y.z" "secret1" "Cy").1) = true :=
  ⟨by decide,
   (email_uniqueness_preserved_amended sha0 9 stDup (by decide)).1
     "x@y.z" "secret1" "Cy"⟩
